import Mathlib

/-!
Verification of the MappingKML query/search pipeline.

The definitions below are a shallow embedding of the repository's search
pipeline:

* `parseQueries` embeds `input.split(/\n/).map(l => l.trim()).filter(Boolean)`
  (src/src/QuerySearchPanel.jsx, line 8; the same expression opens
  `dummySearch`).
* `normalizeRow` / `normalizeRows` embed the `features.map((f, idx) => ...)`
  body of `onSearch` (src/src/QuerySearchPanel.jsx, lines 19-29).
* `onSearch` embeds the whole handler (lines 7-35): parse, early return on an
  empty query list, fetch, `res.json()`, normalize, `setResults`, and the
  `catch` that logs and clears the results.
* `dummySearch` embeds `dummySearch` from the SearchTab utility file.
* `runCompletions` embeds how resolved dispatches hit the store: each
  resolution calls `setResults(rows)` unconditionally (lines 30 and 33).

JavaScript `undefined` for an absent object property is modelled as
`Option.none`; a JS string value is `Option.some`.  `x || ''` on a string
or undefined value is `Option.getD x ""` (both `undefined` and `''` are
falsy, and both map to `''`).
-/

/-- The whitespace characters removed by JavaScript `String.prototype.trim`
(ASCII whitespace plus NBSP and the BOM; the further Unicode space
separators do not occur in this development's inputs). -/
def isJsWs (c : Char) : Bool :=
  c = ' ' || c = '\t' || c = '\n' || c = '\r' ||
  c = Char.ofNat 11 || c = Char.ofNat 12 ||
  c = Char.ofNat 0xA0 || c = Char.ofNat 0xFEFF

/-- Trim leading and trailing JS whitespace from a character list. -/
def trimChars (l : List Char) : List Char :=
  ((l.dropWhile isJsWs).reverse.dropWhile isJsWs).reverse

/-- Embedding of JavaScript `s.trim()`. -/
def jsTrim (s : String) : String :=
  String.mk (trimChars s.data)

/-- Embedding of JavaScript `s.split(/\n/)` (equivalently `s.split('\n')`)
on the underlying character list: `""` splits to `[""]`, and every
newline separates two (possibly empty) fields. -/
def splitLines (l : List Char) : List (List Char) :=
  match l with
  | [] => [[]]
  | a :: rest =>
    let r := splitLines rest
    if a = '\n' then [] :: r
    else
      match r with
      | [] => [[a]]
      | h :: t => (a :: h) :: t

/-- Embedding of `input.split(/\n/).map(l => l.trim()).filter(Boolean)`
(src/src/QuerySearchPanel.jsx line 8): the query tokens of one search. -/
def parseQueries (input : String) : List String :=
  (((splitLines input.data).map (fun l => String.mk (trimChars l))).filter
    (fun t => t ≠ ""))

/-- The property bag of a raw feature, restricted to the four keys the
pipeline reads.  An absent key is `none` (JS `undefined`). -/
structure Props where
  lot : Option String := none
  plan : Option String := none
  lotnumber : Option String := none
  planlabel : Option String := none
deriving DecidableEq

/-- A raw feature of the search response: a property bag (possibly absent,
JS `f.properties` undefined) and an opaque geometry. -/
structure Feature where
  properties : Option Props := none
  geometry : String := ""
deriving DecidableEq

/-- A normalized result row as built by `onSearch` (src/src/QuerySearchPanel.jsx
lines 19-29): the object literal has exactly the fields `id`, `lot`, `plan`.
`lot`/`plan` are `Option String` because the QLD branch stores `props.lot` /
`props.plan` and the other branch stores `props.lotnumber` unguarded, all of
which are `undefined` when the key is missing. -/
structure Row where
  id : Nat
  lot : Option String
  plan : Option String
deriving DecidableEq

/-- Embedding of the per-feature arrow body of `onSearch` (lines 20-28):
`const props = f.properties || {}; if (regions[idx] === 'QLD') {...} else {...}`. -/
def normalizeRow (regions : List String) (idx : Nat) (f : Feature) : Row :=
  let props := f.properties.getD {}
  if regions.get? idx = some "QLD" then
    { id := idx + 1, lot := props.lot, plan := props.plan }
  else
    { id := idx + 1, lot := props.lotnumber, plan := some (props.planlabel.getD "") }

/-- Embedding of `features.map((f, idx) => ...)` with the running index. -/
def normalizeRowsFrom (regions : List String) (idx : Nat) : List Feature → List Row
  | [] => []
  | f :: fs => normalizeRow regions idx f :: normalizeRowsFrom regions (idx + 1) fs

/-- The full normalization of a response's feature list (lines 19-29). -/
def normalizeRows (features : List Feature) (regions : List String) : List Row :=
  normalizeRowsFrom regions 0 features

/-- The parsed body of a search response.  `features` / `regions` are `none`
when the JSON object omits them (or carries a falsy value), matching
`data.features || []` and `data.regions || []` (lines 17-18). -/
structure SearchData where
  features : Option (List Feature) := none
  regions : Option (List String) := none
deriving DecidableEq

/-- The environment's answer to the `fetch('/search', ...)` call:
the promise rejects (network/transport error), or it resolves with an HTTP
status and a body; `body = none` means `res.json()` throws (unparsable). -/
inductive FetchOutcome where
  | networkError
  | response (status : Nat) (body : Option SearchData)
deriving DecidableEq

/-- The observable effect of one `onSearch` run: the final `results` state,
whether a request was dispatched, and whether the `catch` block ran
`console.error`. -/
structure SearchEffect where
  results : List Row
  dispatched : Bool
  errorLogged : Bool
deriving DecidableEq

/-- Embedding of the `onSearch` handler (src/src/QuerySearchPanel.jsx lines
7-35), given the prior `results` state and the fetch outcome.  Note the code
never reads `res.ok` or `res.status`: a resolved response goes straight to
`res.json()`. -/
def onSearch (input : String) (outcome : FetchOutcome) (results0 : List Row) :
    SearchEffect :=
  let queries := parseQueries input
  if queries.isEmpty then
    { results := results0, dispatched := false, errorLogged := false }
  else
    match outcome with
    | .networkError =>
      { results := [], dispatched := true, errorLogged := true }
    | .response _ body =>
      match body with
      | none => { results := [], dispatched := true, errorLogged := true }
      | some data =>
        let features := data.features.getD []
        let regions := data.regions.getD []
        { results := normalizeRows features regions
          dispatched := true
          errorLogged := false }

/-- A result row of `dummySearch` (the SearchTab utility): `{id, lot, plan}`
with plain strings (the utility applies `|| ''` to both fields). -/
structure DRow where
  id : Nat
  lot : String
  plan : String
deriving DecidableEq

/-- Embedding of JavaScript `line.split('/')` (no empty-string corner:
splitting never yields `[]`). -/
def splitSlash (l : List Char) : List (List Char) :=
  match l with
  | [] => [[]]
  | a :: rest =>
    let r := splitSlash rest
    if a = '/' then [] :: r
    else
      match r with
      | [] => [[a]]
      | h :: t => (a :: h) :: t

/-- Embedding of `dummySearch` (the `../utils/dummySearch` module): the same
line parsing as `onSearch`, then `const [lot, plan] = line.split('/');
return { id: idx, lot: lot || '', plan: plan || '' }`. -/
def dummySearchFrom (idx : Nat) : List String → List DRow
  | [] => []
  | line :: rest =>
    let parts := (splitSlash line.data).map String.mk
    { id := idx
      lot := (parts.get? 0).getD ""
      plan := (parts.get? 1).getD "" } :: dummySearchFrom (idx + 1) rest

/-- `dummySearch` applied to the raw textarea input. -/
def dummySearch (input : String) : List DRow :=
  dummySearchFrom 0 (parseQueries input)

/-- A resolved dispatch about to hit the store, ghost-tagged with the
sequence number of the search invocation that issued it (the code itself
carries no such tag). -/
structure Completion where
  seq : Nat
  rows : List Row
deriving DecidableEq

/-- What one resolved dispatch does to the store: `setResults(rows)`
unconditionally (src/src/QuerySearchPanel.jsx line 30; line 33 on failure) —
the sequence tag is never consulted. -/
def applyCompletion (_store : List Row) (c : Completion) : List Row :=
  c.rows

/-- The store after a series of dispatch resolutions, applied in the order
in which their promises settle. -/
def runCompletions (init : List Row) (cs : List Completion) : List Row :=
  cs.foldl applyCompletion init

/-- Modelled from the spec: the repository's `KmlExporter` (§4.5) has no
implementation under src/ (KML export is only mentioned by the README), so
its canonical record and placemark shapes follow the spec's words:
`ParcelRecord = {id, lot, plan, geometry}`. -/
structure ParcelRecord where
  id : Nat
  lot : String
  plan : String
  geometry : String
deriving DecidableEq

/-- Modelled from the spec: a KML placemark with `lot`/`plan` as its
name/description fields and the record's geometry. -/
structure Placemark where
  name : String
  description : String
  geometry : String
deriving DecidableEq

/-- Modelled from the spec: `KmlExporter` (§4.5) — one placemark per record
whose geometry is non-empty, records with empty geometry skipped. -/
def kmlExport : List ParcelRecord → List Placemark
  | [] => []
  | r :: rs =>
    if r.geometry = "" then kmlExport rs
    else { name := r.lot, description := r.plan, geometry := r.geometry } :: kmlExport rs

-- sanity examples (spec §8 end-to-end shapes)
example :
    parseQueries "  a \n\n b " = ["a", "b"] := by decide

example :
    normalizeRows
      [{ properties := some { lot := some "169-173, 203", plan := some "DP753311" } },
       { properties := some { lotnumber := some "1", planlabel := some "RP912949" } }]
      ["QLD", "OTHER"] =
    [{ id := 1, lot := some "169-173, 203", plan := some "DP753311" },
     { id := 2, lot := some "1", plan := some "RP912949" }] := by decide

/-! ### Helper lemmas about trimming -/

theorem head?_dropWhile_false {α : Type} (p : α → Bool) :
    ∀ (l : List α) (x : α), (l.dropWhile p).head? = some x → p x = false := by
  intro l
  induction l with
  | nil => intro x h; simp [List.dropWhile] at h
  | cons a l ih =>
    intro x h
    cases hpa : p a with
    | true =>
      rw [List.dropWhile_cons, if_pos hpa] at h
      exact ih x h
    | false =>
      rw [List.dropWhile_cons, if_neg (by simp [hpa])] at h
      simp only [List.head?_cons, Option.some.injEq] at h
      rw [← h]
      exact hpa

theorem dropWhile_eq_self_of_head? {α : Type} (p : α → Bool) (l : List α)
    (h : ∀ x, l.head? = some x → p x = false) : l.dropWhile p = l := by
  cases l with
  | nil => rfl
  | cons a l =>
    have ha := h a rfl
    rw [List.dropWhile_cons, if_neg (by simp [ha])]

theorem getLast?_dropWhile {α : Type} (p : α → Bool) (l : List α)
    (h : l.dropWhile p ≠ []) : (l.dropWhile p).getLast? = l.getLast? := by
  conv_rhs => rw [← List.takeWhile_append_dropWhile (p := p) (l := l)]
  rw [List.getLast?_append_of_ne_nil _ h]

theorem trimChars_idem (l : List Char) : trimChars (trimChars l) = trimChars l := by
  unfold trimChars
  have h1 : (((l.dropWhile isJsWs).reverse.dropWhile isJsWs).reverse).dropWhile isJsWs
      = ((l.dropWhile isJsWs).reverse.dropWhile isJsWs).reverse := by
    apply dropWhile_eq_self_of_head?
    intro x hx
    rw [List.head?_reverse] at hx
    have hB : (l.dropWhile isJsWs).reverse.dropWhile isJsWs ≠ [] := by
      intro hnil
      rw [hnil] at hx
      simp at hx
    rw [getLast?_dropWhile isJsWs _ hB] at hx
    have hrev : (l.dropWhile isJsWs).reverse.getLast? = (l.dropWhile isJsWs).head? := by
      rw [← List.head?_reverse, List.reverse_reverse]
    rw [hrev] at hx
    exact head?_dropWhile_false isJsWs l x hx
  rw [h1, List.reverse_reverse, List.dropWhile_idempotent]

theorem jsTrim_idem (s : String) : jsTrim (jsTrim s) = jsTrim s := by
  show String.mk (trimChars (String.mk (trimChars s.data)).data) = _
  rw [show (String.mk (trimChars s.data)).data = trimChars s.data from rfl,
    trimChars_idem]
  rfl

/-! ### Helper lemmas about normalization -/

theorem normalizeRow_id (regions : List String) (idx : Nat) (f : Feature) :
    (normalizeRow regions idx f).id = idx + 1 := by
  unfold normalizeRow
  split <;> rfl

theorem normalizeRowsFrom_map_id (regions : List String) :
    ∀ (fs : List Feature) (idx : Nat),
      (normalizeRowsFrom regions idx fs).map Row.id = List.range' (idx + 1) fs.length := by
  intro fs
  induction fs with
  | nil => intro idx; rfl
  | cons f fs ih =>
    intro idx
    simp [normalizeRowsFrom, List.range'_succ, normalizeRow_id, ih (idx + 1)]

theorem dummySearchFrom_map_id :
    ∀ (lines : List String) (idx : Nat),
      (dummySearchFrom idx lines).map DRow.id = List.range' idx lines.length := by
  intro lines
  induction lines with
  | nil => intro idx; rfl
  | cons line rest ih =>
    intro idx
    simp [dummySearchFrom, List.range'_succ, ih (idx + 1)]

/-! ### Concrete fixtures -/

/-- A feature carrying all four property keys, with distinct values. -/
def fAll : Feature :=
  { properties := some
      { lot := some "12", plan := some "DP753311",
        lotnumber := some "1", planlabel := some "RP912949" }
    geometry := "G" }

/-- A pre-existing store row used to test that prior contents are replaced. -/
def rowOld : Row := { id := 1, lot := some "OLD", plan := some "OLDP" }

/-! ### Claims -/

/-- C1: property extraction is region-dependent — a feature whose region tag
is `QLD` has `lot`/`plan` read from property keys `lot`/`plan`, a feature
with any other tag (including a missing tag) from `lotnumber`/`planlabel`,
and a response that omits `regions` entirely sends every feature through the
non-QLD rule. -/
theorem C1_region_dependent_extraction (regions : List String) (idx : Nat) (f : Feature) :
    (regions.get? idx = some "QLD" →
      normalizeRow regions idx f =
        { id := idx + 1, lot := (f.properties.getD {}).lot,
          plan := (f.properties.getD {}).plan }) ∧
    (regions.get? idx ≠ some "QLD" →
      normalizeRow regions idx f =
        { id := idx + 1, lot := (f.properties.getD {}).lotnumber,
          plan := some ((f.properties.getD {}).planlabel.getD "") }) ∧
    (∀ data : SearchData, data.regions = none →
      normalizeRow (data.regions.getD []) idx f =
        { id := idx + 1, lot := (f.properties.getD {}).lotnumber,
          plan := some ((f.properties.getD {}).planlabel.getD "") }) := by
  refine ⟨?_, ?_, ?_⟩
  · intro h
    unfold normalizeRow
    rw [if_pos h]
  · intro h
    unfold normalizeRow
    rw [if_neg h]
  · intro data h
    rw [h]
    unfold normalizeRow
    rw [if_neg (by cases idx <;> simp [Option.getD])]

/-- Witness for C1 at concrete inputs: the QLD, non-QLD and omitted-regions
rules applied to `fAll`. -/
theorem C1_region_dependent_extraction_witness :
    normalizeRow ["QLD"] 0 fAll =
      { id := 0 + 1, lot := (fAll.properties.getD {}).lot,
        plan := (fAll.properties.getD {}).plan } ∧
    normalizeRow ["NSW"] 0 fAll =
      { id := 0 + 1, lot := (fAll.properties.getD {}).lotnumber,
        plan := some ((fAll.properties.getD {}).planlabel.getD "") } ∧
    normalizeRow (({} : SearchData).regions.getD []) 0 fAll =
      { id := 0 + 1, lot := (fAll.properties.getD {}).lotnumber,
        plan := some ((fAll.properties.getD {}).planlabel.getD "") } :=
  ⟨(C1_region_dependent_extraction ["QLD"] 0 fAll).1 rfl,
   (C1_region_dependent_extraction ["NSW"] 0 fAll).2.1 (by decide),
   (C1_region_dependent_extraction [] 0 fAll).2.2 {} rfl⟩

/-- C2 (code evaluation): against the claim, a feature missing its expected
region-specific keys does NOT normalize to empty strings — the QLD branch
stores `undefined` (`none`) for both `lot` and `plan`, and the non-QLD
branch stores `undefined` for `lot`; only the non-QLD `plan` is defaulted to
`""` (the `|| ''` guard is applied to `planlabel` alone).  The same holds
when the feature has no properties bag at all. -/
theorem C2_missing_keys_eval :
    normalizeRow ["QLD"] 0 ({} : Feature) = { id := 1, lot := none, plan := none } ∧
    normalizeRow ["NSW"] 0 ({} : Feature) = { id := 1, lot := none, plan := some "" } ∧
    normalizeRow ["QLD"] 0 { properties := some {} } =
      { id := 1, lot := none, plan := none } ∧
    normalizeRow ["NSW"] 0 { properties := some {} } =
      { id := 1, lot := none, plan := some "" } := by
  decide

/-- C7: the parsed token sequence is exactly the lines of the text, each
trimmed, with blank-after-trim lines dropped, in order and with duplicates
preserved; consequently every token is non-empty and not whitespace-only
(it is a fixed point of trimming). -/
theorem C7_tokens (s : String) :
    parseQueries s =
      ((splitLines s.data).map (fun l => String.mk (trimChars l))).filter
        (fun t => t ≠ "") ∧
    ∀ t ∈ parseQueries s, t ≠ "" ∧ jsTrim t = t := by
  refine ⟨rfl, ?_⟩
  intro t ht
  unfold parseQueries at ht
  rw [List.mem_filter] at ht
  obtain ⟨hmem, hne⟩ := ht
  rw [List.mem_map] at hmem
  obtain ⟨l, _, rfl⟩ := hmem
  refine ⟨by simpa using hne, ?_⟩
  show jsTrim (String.mk (trimChars l)) = _
  unfold jsTrim
  rw [show (String.mk (trimChars l)).data = trimChars l from rfl, trimChars_idem]

/-- Witness for C7 at a concrete input with inner whitespace, a blank line
and surrounding padding. -/
theorem C7_tokens_witness :
    ("a b" ∈ parseQueries "  a b \n\n c ") ∧ ("a b" ≠ "" ∧ jsTrim "a b" = "a b") :=
  ⟨by decide, (C7_tokens "  a b \n\n c ").2 "a b" (by decide)⟩

/-- C8: when the parsed token sequence is empty, `onSearch` dispatches
nothing, raises no error, and leaves the results unchanged. -/
theorem C8_empty_input_noop (input : String) (outcome : FetchOutcome)
    (store : List Row) (h : parseQueries input = []) :
    onSearch input outcome store =
      { results := store, dispatched := false, errorLogged := false } := by
  unfold onSearch
  rw [h]
  rfl

/-- Witness for C8: a whitespace-only input is a no-op on a non-empty store. -/
theorem C8_empty_input_noop_witness :
    parseQueries " \n\t\n" = [] ∧
    onSearch " \n\t\n" .networkError [rowOld] =
      { results := [rowOld], dispatched := false, errorLogged := false } :=
  ⟨by decide, C8_empty_input_noop " \n\t\n" .networkError [rowOld] (by decide)⟩

/-- C10: a response whose parsed body lacks `features` is a successful empty
result: the store becomes `[]`, the dispatch happened, and no failure is
logged. -/
theorem C10_missing_features_ok (input : String) (status : Nat) (store : List Row)
    (data : SearchData) (h : parseQueries input ≠ []) (hf : data.features = none) :
    onSearch input (.response status (some data)) store =
      { results := [], dispatched := true, errorLogged := false } := by
  cases hq : parseQueries input with
  | nil => exact absurd hq h
  | cons a l =>
    simp [onSearch, hq, hf, normalizeRows, normalizeRowsFrom]

/-- Witness for C10: a body `{regions: ['QLD']}` without `features`. -/
theorem C10_missing_features_ok_witness :
    parseQueries "a" ≠ [] ∧
    onSearch "a" (.response 200 (some { regions := some ["QLD"] })) [rowOld] =
      { results := [], dispatched := true, errorLogged := false } :=
  ⟨by decide,
   C10_missing_features_ok "a" 200 [rowOld] { regions := some ["QLD"] } (by decide) rfl⟩

/-- A search body whose single feature carries `lotnumber`/`planlabel`. -/
def oneFeatureData : SearchData :=
  { features := some
      [{ properties := some { lotnumber := some "1", planlabel := some "RP1" },
         geometry := "G" }]
    regions := none }

/-- C3 counterexample: a non-success HTTP status (500) whose body parses is
NOT treated as a dispatch failure — the store receives the parsed rows
(non-empty) and no error is logged, because `onSearch` never consults the
status. -/
theorem C3_counterexample :
    (onSearch "a" (.response 500 (some oneFeatureData)) []).results =
      [{ id := 1, lot := some "1", plan := some "RP1" }] ∧
    (onSearch "a" (.response 500 (some oneFeatureData)) []).results ≠ [] ∧
    (onSearch "a" (.response 500 (some oneFeatureData)) []).errorLogged = false := by
  decide

/-- C3 amended: on a network/transport error or an unparsable body the store
ends empty regardless of its prior contents and the failure is logged; the
HTTP status is never consulted — the effect of a resolved response is
independent of its status code. -/
theorem C3_failure_clears_store (input : String) (store : List Row)
    (h : parseQueries input ≠ []) :
    onSearch input .networkError store =
      { results := [], dispatched := true, errorLogged := true } ∧
    (∀ status : Nat,
      onSearch input (.response status none) store =
        { results := [], dispatched := true, errorLogged := true }) ∧
    (∀ (status status' : Nat) (body : Option SearchData),
      onSearch input (.response status body) store =
        onSearch input (.response status' body) store) := by
  cases hq : parseQueries input with
  | nil => exact absurd hq h
  | cons a l =>
    refine ⟨?_, ?_, ?_⟩
    · simp [onSearch, hq]
    · intro status
      simp [onSearch, hq]
    · intro status status' body
      cases body <;> simp [onSearch, hq]

/-- Witness for C3 (amended) at a concrete input with a non-empty prior
store. -/
theorem C3_failure_clears_store_witness :
    parseQueries "a" ≠ [] ∧
    onSearch "a" .networkError [rowOld] =
      { results := [], dispatched := true, errorLogged := true } :=
  ⟨by decide, (C3_failure_clears_store "a" [rowOld] (by decide)).1⟩

/-- C4 counterexample: `dummySearch` also builds one record per token, but
the id of the record at position 0 is 0, not 1. -/
theorem C4_counterexample :
    (dummySearch "a/b").length = 1 ∧
    (dummySearch "a/b").map DRow.id = [0] ∧
    ([0] : List Nat) ≠ [1] := by
  decide

/-- C4 amended: the `onSearch` normalizer yields exactly one record per
feature with ids exactly 1..N in response order; the `dummySearch` pipeline
likewise yields one record per parsed token but assigns the 0-based ids
0..N-1. -/
theorem C4_ids (features : List Feature) (regions : List String) (input : String) :
    (normalizeRows features regions).length = features.length ∧
    (normalizeRows features regions).map Row.id = List.range' 1 features.length ∧
    (dummySearch input).map DRow.id = List.range' 0 (parseQueries input).length := by
  refine ⟨?_, normalizeRowsFrom_map_id regions features 0, dummySearchFrom_map_id _ 0⟩
  have h := congrArg List.length (normalizeRowsFrom_map_id regions features 0)
  simpa [List.length_range'] using h

/-- C5 (code evaluation): the store applies every resolved dispatch
unconditionally, so when the newer dispatch (sequence 2) resolves first and
the stale one (sequence 1) resolves second, the stale rows end up in the
store — there is no sequence-number guard. -/
theorem C5_stale_overwrite_eval :
    runCompletions []
      [{ seq := 2, rows := [{ id := 1, lot := some "B", plan := some "PB" }] },
       { seq := 1, rows := [{ id := 1, lot := some "A", plan := some "PA" }] }] =
      [{ id := 1, lot := some "A", plan := some "PA" }] ∧
    [({ id := 1, lot := some "A", plan := some "PA" } : Row)] ≠
      [{ id := 1, lot := some "B", plan := some "PB" }] := by
  decide

/-- C6 counterexample: two features that differ only in their geometry
normalize to identical records, so the normalized record cannot carry the
feature's geometry. -/
theorem C6_counterexample :
    ({ properties := some { lotnumber := some "1" }, geometry := "POLY A" } : Feature).geometry ≠
      ({ properties := some { lotnumber := some "1" }, geometry := "POLY B" } : Feature).geometry ∧
    normalizeRow [] 0 { properties := some { lotnumber := some "1" }, geometry := "POLY A" } =
      normalizeRow [] 0 { properties := some { lotnumber := some "1" }, geometry := "POLY B" } := by
  decide

/-- C6 amended: normalization drops geometry — the produced record is a
function of the feature's property bag (and the index and region tag) alone,
so no geometry reaches the store or its consumers. -/
theorem C6_geometry_dropped (regions : List String) (idx : Nat) (f g : Feature)
    (h : f.properties = g.properties) :
    normalizeRow regions idx f = normalizeRow regions idx g := by
  unfold normalizeRow
  rw [h]

/-- Witness for C6 (amended): the two fixtures of the counterexample. -/
theorem C6_geometry_dropped_witness :
    normalizeRow [] 0 { properties := some { lotnumber := some "1" }, geometry := "POLY A" } =
      normalizeRow [] 0 { properties := some { lotnumber := some "1" }, geometry := "POLY B" } :=
  C6_geometry_dropped [] 0 _ _ rfl

theorem kmlExport_eq (rs : List ParcelRecord) :
    kmlExport rs =
      (rs.filter (fun r => r.geometry ≠ "")).map
        (fun r => { name := r.lot, description := r.plan, geometry := r.geometry }) := by
  induction rs with
  | nil => rfl
  | cons r rs ih =>
    by_cases h : r.geometry = ""
    · simp [kmlExport, List.filter_cons, h, ih]
    · simp [kmlExport, List.filter_cons, h, ih]

/-- C9: KML export emits exactly one placemark per record with non-empty
geometry, carrying the record's `lot`/`plan` as the placemark's
name/description; empty-geometry records are skipped, and the empty store
exports a document with zero placemarks. -/
theorem C9_kml_export (rs : List ParcelRecord) :
    kmlExport rs =
      (rs.filter (fun r => r.geometry ≠ "")).map
        (fun r => { name := r.lot, description := r.plan, geometry := r.geometry }) ∧
    (kmlExport rs).length = (rs.filter (fun r => r.geometry ≠ "")).length ∧
    kmlExport ([] : List ParcelRecord) = [] := by
  refine ⟨kmlExport_eq rs, ?_, rfl⟩
  rw [kmlExport_eq rs, List.length_map]
